import Mathlib

/-!
Verification of git-automessage's history-extraction-and-synthesis pipeline.

Rust strings are modelled as Lean `String`s; the operations of Rust's standard
library that the sources use (`contains`, `starts_with`, `trim`, `lines`,
`split_whitespace`, `to_lowercase`, `trim_matches`, slicing) are given
executable models below, restricted to the ASCII fragment of Unicode
classification, which covers all data considered here.  On ASCII data Rust's
byte indices coincide with character indices.
-/

namespace AutoMessage

/-- Does the first character list start with the second? -/
def startsWithL : List Char → List Char → Bool
  | _, [] => true
  | [], _ :: _ => false
  | a :: as, b :: bs => a == b && startsWithL as bs

/-- Does the first character list contain the second as a contiguous run? -/
def containsL : List Char → List Char → Bool
  | [], pat => startsWithL [] pat
  | a :: t, pat => startsWithL (a :: t) pat || containsL t pat

/-- Models Rust `str::contains` with a string pattern. -/
def str_contains (s pat : String) : Bool :=
  containsL s.toList pat.toList

/-- Models Rust `str::starts_with`. -/
def str_starts_with (s pat : String) : Bool :=
  startsWithL s.toList pat.toList

/-- Models Rust `str::ends_with`. -/
def str_ends_with (s pat : String) : Bool :=
  startsWithL s.toList.reverse pat.toList.reverse

/-- Models Rust `str::trim` (ASCII whitespace). -/
def str_trim (s : String) : String :=
  ⟨((s.toList.dropWhile Char.isWhitespace).reverse.dropWhile Char.isWhitespace).reverse⟩

/-- Models Rust `str::to_lowercase` on ASCII data. -/
def str_lower (s : String) : String :=
  ⟨s.toList.map Char.toLower⟩

/-- Splits at every character satisfying `p`, keeping empty pieces: the shape of
    Rust `str::split` with a character-class pattern. -/
def splitPredL (p : Char → Bool) : List Char → List (List Char)
  | [] => [[]]
  | c :: t =>
    if p c then [] :: splitPredL p t
    else
      match splitPredL p t with
      | [] => [[c]]
      | h :: r => (c :: h) :: r

/-- Models Rust `str::split_whitespace`: whitespace-separated tokens, with empty
    tokens dropped. -/
def str_split_whitespace (s : String) : List String :=
  ((splitPredL Char.isWhitespace s.toList).filter fun w => !w.isEmpty).map fun w => ⟨w⟩

/-- Models Rust `str::lines`: split on newline, a trailing newline producing no
    trailing empty line, and a final carriage return stripped from each line. -/
def str_lines (s : String) : List String :=
  if s.toList.isEmpty then []
  else
    let parts := splitPredL (fun c => c == '\n') s.toList
    let parts := if s.toList.getLast? == some '\n' then parts.dropLast else parts
    parts.map fun p => ⟨if p.getLast? == some '\r' then p.dropLast else p⟩

/-- Models `str::trim_matches(|c| !c.is_alphanumeric())` (ASCII): strips leading
    and trailing non-alphanumeric characters. -/
def trim_non_alnum (s : String) : String :=
  ⟨((s.toList.dropWhile fun c => !c.isAlphanum).reverse.dropWhile fun c => !c.isAlphanum).reverse⟩

/-- Models `Vec::join("\n")`. -/
def join_lines : List String → String
  | [] => ""
  | h :: t => t.foldl (fun acc l => acc ++ "\n" ++ l) h

/-- Models Rust `str::split` with a non-empty string pattern (leftmost,
    non-overlapping matches); the fuel argument is the input length, which
    bounds the number of steps. -/
def splitOnL (pat : List Char) : Nat → List Char → List (List Char)
  | _, [] => [[]]
  | 0, cs => [cs]
  | fuel + 1, c :: t =>
    if !pat.isEmpty && startsWithL (c :: t) pat then
      [] :: splitOnL pat fuel (List.drop (pat.length - 1) t)
    else
      match splitOnL pat fuel t with
      | [] => [[c]]
      | h :: r => (c :: h) :: r

/-- Models Rust `str::split` with a string pattern, as used on `".."`. -/
def str_split_on (s pat : String) : List String :=
  (splitOnL pat.toList s.toList.length s.toList).map fun w => ⟨w⟩

/-- src/git.rs: `CommitInfo`. -/
structure CommitInfo where
  sha : String
  message : String
  author : String
  date : String
  files_changed : List String

/-- src/git.rs: `StagedFile`. -/
structure StagedFile where
  path : String
  status : String

/-! ## ChangelogGenerator: merging a section into an existing changelog
    (src/changelog.rs, `append_to_changelog`, lines 64-101). -/

/-- The header-boundary scan of `append_to_changelog` (src/changelog.rs lines
    79-86): the first index `i > 0` whose line is blank after trimming and whose
    predecessor starts with `#` makes `header_end = i + 1`.  The scan starts at
    index 1, so the Rust guard `i > 0` always holds here.  When the loop runs
    off the end, the Rust code has pushed every line and left `header_end = 0`;
    that outcome is the `none` result. -/
def find_header_end_go : String → List String → Nat → Option Nat
  | _, [], _ => none
  | prev, cur :: rest, idx =>
    if (str_trim cur == "") && str_starts_with prev "#" then some (idx + 1)
    else find_header_end_go cur rest (idx + 1)

/-- Entry point of the header-boundary scan over the collected lines. -/
def find_header_end : List String → Option Nat
  | [] => none
  | first :: rest => find_header_end_go first rest 1

/-- The line manipulation of `append_to_changelog` when the marker was found:
    with a boundary, `new_lines` is the lines up to and including the boundary,
    the new content as one element, then the remaining lines; without one, the
    loop has pushed every line, `header_end` is still `0`, and the extend step
    appends the whole line list a second time. -/
def merge_lines (content : String) (lines : List String) : List String :=
  match find_header_end lines with
  | some k => lines.take k ++ content :: lines.drop k
  | none => lines ++ content :: lines

/-- src/changelog.rs `append_to_changelog`, its pure core: the file I/O around
    it reads `existing` in full and overwrites the file with the result.  When
    the existing contents lack the `"# Changelog"` marker the Rust writes
    `format!("{}", content)`: the new content alone. -/
def append_to_changelog (content existing : String) : String :=
  if str_contains existing "# Changelog" then
    join_lines (merge_lines content (str_lines existing))
  else
    content

/-! ## Version detection (src/changelog.rs, `detect_version_from_commits`,
    lines 103-141). -/

/-- The inner word loop (src/changelog.rs lines 112-122): scan consecutive
    word pairs; on the first pair whose first word contains `"version"` or
    `"release"` and whose second word starts with `'v'` and has length greater
    than one, return that second word with non-alphanumeric characters trimmed
    from both ends (the leading `'v'` is alphanumeric, so only trailing
    characters are actually removed). -/
def extract_from_words : List String → Option String
  | w :: next :: rest =>
    if (str_contains w "version" || str_contains w "release")
        && str_starts_with next "v" && 1 < next.length then
      some (trim_non_alnum next)
    else extract_from_words (next :: rest)
  | _ => none

/-- The per-commit step (src/changelog.rs lines 108-123): the message is
    lowercased, guarded by a substring test, then scanned word by word. -/
def extract_version (message : String) : Option String :=
  let m := str_lower message
  if str_contains m "version" || str_contains m "release" then
    extract_from_words (str_split_whitespace m)
  else none

/-- The assignment step inside the commit loop: a successful extraction
    overwrites the accumulated value, a failed one leaves it unchanged. -/
def pick_version (acc found : Option String) : Option String :=
  match found with
  | some v => some v
  | none => acc

/-- The commit loop of `detect_version_from_commits`: each successful
    extraction overwrites the current value, so the last successful commit
    wins.  The Rust sentinel string `"Unreleased"` is modelled by `none`; an
    extracted token always begins with a lowercase `'v'`, so it can never
    collide with the sentinel. -/
def scan_version (commits : List CommitInfo) : Option String :=
  commits.foldl (fun acc c => pick_version acc (extract_version c.message)) none

/-- The fallback of `detect_version_from_commits` (lines 126-138): `has_feat`
    picks `"0.1.0"`, else `has_fix` picks `"0.0.1"`, else `"0.0.1"`. -/
def fallback_version (commits : List CommitInfo) : String :=
  let has_feat := commits.any fun c => str_starts_with (str_lower c.message) "feat"
  let has_fix := commits.any fun c => str_starts_with (str_lower c.message) "fix"
  if has_feat then "0.1.0" else if has_fix then "0.0.1" else "0.0.1"

/-- src/changelog.rs `detect_version_from_commits` (always `Ok` in the Rust). -/
def detect_version_from_commits (commits : List CommitInfo) : String :=
  match scan_version commits with
  | some v => v
  | none => fallback_version commits

/-! ## Short-SHA rendering (src/changelog.rs lines 155-166 and src/llm.rs
    lines 151-154). -/

/-- Models the Rust slice `&sha[..8]`: `none` is the out-of-bounds panic that
    the slice raises on a SHA shorter than 8 characters. -/
def short_sha (sha : String) : Option String :=
  if 8 ≤ sha.length then some ⟨sha.toList.take 8⟩ else none

/-- One `commit_details` line of `generate_changelog_summary` (src/llm.rs lines
    151-154): `- <sha[..8]>: <message.trim()> (<date>) by <author>`. -/
def summary_commit_line (c : CommitInfo) : Option String :=
  (short_sha c.sha).map fun s =>
    "- " ++ s ++ ": " ++ str_trim c.message ++ " (" ++ c.date ++ ") by " ++ c.author

/-- One grouped entry of `generate_default_changelog` (src/changelog.rs lines
    155-166): `- <sha[..8]> (<message.trim()>) - <author>`. -/
def default_commit_line (c : CommitInfo) : Option String :=
  (short_sha c.sha).map fun s =>
    "- " ++ s ++ " (" ++ str_trim c.message ++ ") - " ++ c.author

/-- The if/else-if classification of `generate_default_changelog`: feat 0,
    fix 1, docs 2, other 3, on the trimmed lowercased message. -/
def commit_class (c : CommitInfo) : Nat :=
  let m := str_lower (str_trim c.message)
  if str_starts_with m "feat" then 0
  else if str_starts_with m "fix" then 1
  else if str_starts_with m "docs" then 2
  else 3

/-- One section of the templated changelog: skipped when empty, otherwise the
    title, the entries joined by newlines, and a blank line. -/
def section_block (title : String) (entries : List String) : String :=
  if entries.isEmpty then "" else title ++ join_lines entries ++ "\n\n"

/-- src/changelog.rs `generate_default_changelog` (lines 143-193); the current
    local date is passed in as a parameter.  The Rust loop slices every
    commit's SHA, so the result is `none` (a panic) as soon as any commit has a
    SHA shorter than 8 characters. -/
def generate_default_changelog (date : String) (commits : List CommitInfo) : Option String := do
  let version := detect_version_from_commits commits
  let features ← (commits.filter fun c => commit_class c == 0).mapM default_commit_line
  let fixes ← (commits.filter fun c => commit_class c == 1).mapM default_commit_line
  let docs ← (commits.filter fun c => commit_class c == 2).mapM default_commit_line
  let others ← (commits.filter fun c => commit_class c == 3).mapM default_commit_line
  pure ("## [" ++ version ++ "] - " ++ date ++ "\n\n"
    ++ section_block "### Added\n\n" features
    ++ section_block "### Fixed\n\n" fixes
    ++ section_block "### Documentation\n\n" docs
    ++ section_block "### Other Changes\n\n" others)

/-! ## Commit ranges (src/git.rs, `get_commits_in_range`, lines 154-175). -/

/-- The two failure kinds `get_commits_in_range` can surface: the explicit
    `bail!("Invalid range format. Use format: start..end")`, and an error from
    resolving one of the two endpoint revisions. -/
inductive RangeError where
  | invalidArgument
  | resolveFailed
deriving DecidableEq

/-- src/git.rs `get_commits_in_range`.  `resolve` abstracts
    `Repository::revparse_single` (`none` for an unresolvable revision) and
    `walk` abstracts the revwalk (push the end commit, hide the start commit),
    a read-only traversal; both are total here because only the argument
    validation is at issue.  The Rust code checks only that splitting on
    `".."` yields exactly two parts before resolving both of them in order. -/
def get_commits_in_range (resolve : String → Option Nat) (walk : Nat → Nat → List Nat)
    (range : String) : Except RangeError (List Nat) :=
  let range_parts := str_split_on range ".."
  if range_parts.length != 2 then
    .error .invalidArgument
  else
    match resolve (range_parts.getD 0 "") with
    | none => .error .resolveFailed
    | some start_commit =>
      match resolve (range_parts.getD 1 "") with
      | none => .error .resolveFailed
      | some end_commit => .ok (walk start_commit end_commit)

/-! ## The commit flow (src/cli.rs, `handle_commit`, lines 87-111). -/

/-- The observable actions of `handle_commit`, in order: console output, the
    outbound generation request, and the created commit. -/
inductive CommitEffect where
  | printed (s : String)
  | genRequest
  | commitCreated (message : String)
deriving DecidableEq

/-- A run of `handle_commit`: its effect trace and whether it returned `Ok`. -/
structure CommitRun where
  effects : List CommitEffect
  ok : Bool

/-- src/cli.rs `handle_commit` from the point where the repository and the
    generator have been opened: `staged` is `get_staged_files()`, `diff` the
    staged diff (read after the guard in the Rust), `gen` the generation call
    (the one fallible step modelled), `commitFlag` the `--commit` flag. -/
def handle_commit (staged : List StagedFile) (diff : String)
    (gen : String → List StagedFile → Except String String)
    (commitFlag : Bool) : CommitRun :=
  if staged.isEmpty then
    ⟨[.printed "No staged changes found. Please stage your changes first."], true⟩
  else
    match gen diff staged with
    | .error _ => ⟨[.genRequest], false⟩
    | .ok message =>
      ⟨.genRequest ::
        (if commitFlag then
          [.commitCreated message, .printed "Commit created successfully!"]
        else
          [.printed ("Generated commit message:\n" ++ message ++ "\n"),
           .printed "Use --commit flag to create the commit automatically."]), true⟩

/-! ## GenerationClient (spec §4.3).

    The retrying generation call — `MessageGenerator::generate_message`, the
    function exercised by tests/test_llm.rs — is repository code that is not
    present under src/ (src/llm.rs delegates a single un-retried attempt to the
    `rig` library and exposes no `generate_message`).  It is therefore modelled
    from the spec below. -/

/-- Drops everything up to and including the first newline: removing the
    leading fence-marker line (which may carry a language tag). -/
def drop_first_line_chars : List Char → List Char
  | [] => []
  | c :: t => if c == '\n' then t else drop_first_line_chars t

/-- Removes the first line of a string. -/
def drop_first_line (s : String) : String :=
  ⟨drop_first_line_chars s.toList⟩

/-- Removes a trailing triple-backtick fence marker: the final three backticks
    and the newline just before them, when there is one. -/
def drop_last_fence (s : String) : String :=
  let r := s.toList.reverse.drop 3
  let r := match r with
    | '\n' :: t => t
    | t => t
  ⟨r.reverse⟩

/-- Modelled from the spec: the fence stripping of GenerationClient
    post-processing.  Purely textual: when the text starts with ```` ``` ````
    the leading marker line is removed, and when the result ends with
    ```` ``` ```` the trailing marker is removed; nothing else is touched — in
    particular no inner fence and no other markdown is interpreted. -/
def strip_code_fence (t : String) : String :=
  let t1 := if str_starts_with t "```" then drop_first_line t else t
  if str_ends_with t1 "```" then drop_last_fence t1 else t1

/-- Modelled from the spec: GenerationClient post-processing — trim leading and
    trailing whitespace, then strip a leading and a trailing triple-backtick
    fence if present. -/
def post_process (raw : String) : String :=
  strip_code_fence (str_trim raw)

/-- Modelled from the spec: the error surfaced after all attempts fail,
    wrapping the underlying cause. -/
inductive GenError where
  | generationFailed (cause : String)
deriving DecidableEq

/-- A run of the generation call: how many attempts were made, how many
    one-second inter-attempt pauses were taken, and the outcome. -/
structure GenRun where
  attempts : Nat
  pauses : Nat
  result : Except GenError String

/-- Modelled from the spec: `GenerationClient.generate` — up to 3 attempts
    total (1 initial + 2 retries) with a one-second pause between attempts;
    any successful response, even the empty string, ends the run and is
    post-processed; when every attempt fails the last error is surfaced as
    `GenerationFailed`.  `oracle i` is the provider's response to the i-th
    attempt.  The 30-second wall-clock budget is real time and not modelled. -/
def generate_message (oracle : Nat → Except String String) : GenRun :=
  match oracle 0 with
  | .ok s => ⟨1, 0, .ok (post_process s)⟩
  | .error _ =>
    match oracle 1 with
    | .ok s => ⟨2, 1, .ok (post_process s)⟩
    | .error _ =>
      match oracle 2 with
      | .ok s => ⟨3, 2, .ok (post_process s)⟩
      | .error e => ⟨3, 2, .error (.generationFailed e)⟩

/-! ## The version-label claim, stated from the spec's words (for comparison
    with `detect_version_from_commits`). -/

/-- Strips trailing non-alphanumeric characters only, as the claim words it. -/
def trim_trailing_non_alnum (s : String) : String :=
  ⟨(s.toList.reverse.dropWhile fun c => !c.isAlphanum).reverse⟩

/-- The claim's scan taken literally: a whitespace token equal — case
    insensitively — to `"version"` or `"release"`, immediately followed by a
    token starting with `'v'` and at least one more character; the label is
    that following token as written in the message, with trailing
    non-alphanumeric characters stripped. -/
def claimed_token_scan : List String → Option String
  | w :: next :: rest =>
    if (str_lower w == "version" || str_lower w == "release")
        && str_starts_with next "v" && 1 < next.length then
      some (trim_trailing_non_alnum next)
    else claimed_token_scan (next :: rest)
  | _ => none

/-- The claim's version-label rule taken literally, aligned with the code on
    everything the claim leaves open (the last matching commit wins, the first
    matching pair within a commit, the fallback checked case-insensitively) so
    that only the claim's own assertions are compared. -/
def claimed_version_label (commits : List CommitInfo) : String :=
  match
    commits.foldl
      (fun acc c => pick_version acc (claimed_token_scan (str_split_whitespace c.message)))
      none
  with
  | some v => v
  | none => fallback_version commits

/-- The amended per-message rule: the scan runs over the lowercased message,
    guarded by a substring test; a whitespace token merely containing
    `"version"` or `"release"` as a substring qualifies, and the label is the
    immediately following token of the lowercased message — starting with `'v'`
    and at least two characters long — with surrounding non-alphanumeric
    characters trimmed (only trailing ones can exist, after the leading `'v'`).
    Within one message the first qualifying pair wins. -/
def amended_token_scan (message : String) : Option String :=
  let m := str_lower message
  if str_contains m "version" || str_contains m "release" then
    (List.zip (str_split_whitespace m) (str_split_whitespace m).tail).findSome? fun p =>
      if (str_contains p.1 "version" || str_contains p.1 "release")
          && str_starts_with p.2 "v" && 1 < p.2.length then
        some (trim_non_alnum p.2)
      else none
  else none

/-- The amended version-label rule over a commit list: the last commit with a
    qualifying pair determines the label; with none, `"0.1.0"` when some
    message starts (case-insensitively) with `feat`, else `"0.0.1"`. -/
def amended_version_label (commits : List CommitInfo) : String :=
  match commits.reverse.findSome? (fun c => amended_token_scan c.message) with
  | some v => v
  | none => fallback_version commits

/-! ## The boundary-free condition of claim C10, as the claim words it. -/

/-- No line starting with `'#'` is immediately followed by a blank
    (whitespace-only) line. -/
def no_header_boundary : List String → Bool
  | a :: b :: rest =>
    !(str_starts_with a "#" && str_trim b == "") && no_header_boundary (b :: rest)
  | _ => true

/-! ## Helper lemmas -/

theorem findSome_append {α β : Type} (f : α → Option β) (l1 l2 : List α) :
    (l1 ++ l2).findSome? f
      = match l1.findSome? f with
        | some v => some v
        | none => l2.findSome? f := by
  induction l1 with
  | nil => simp [List.findSome?]
  | cons a t ih =>
    simp only [List.cons_append, List.findSome?]
    cases f a <;> simp [ih]

theorem foldl_pick_last {α : Type} (f : α → Option String) (L : List α) :
    ∀ acc : Option String,
      L.foldl (fun a c => pick_version a (f c)) acc
        = pick_version acc (L.reverse.findSome? f) := by
  induction L with
  | nil => intro acc; simp [List.findSome?, pick_version]
  | cons c t ih =>
    intro acc
    simp only [List.foldl_cons, List.reverse_cons]
    rw [ih, findSome_append]
    cases t.reverse.findSome? f <;> cases hc : f c <;>
      simp [List.findSome?, hc, pick_version]

theorem extract_eq_zip_scan (ws : List String) :
    extract_from_words ws
      = (List.zip ws ws.tail).findSome? fun p =>
          if (str_contains p.1 "version" || str_contains p.1 "release")
              && str_starts_with p.2 "v" && 1 < p.2.length then
            some (trim_non_alnum p.2)
          else none := by
  induction ws with
  | nil => simp [extract_from_words, List.findSome?]
  | cons w t ih =>
    cases t with
    | nil => simp [extract_from_words, List.findSome?]
    | cons next rest =>
      simp only [extract_from_words, List.tail_cons, List.zip_cons_cons, List.findSome?]
      rw [ih]
      split <;> simp [List.zip]

theorem extract_version_eq_amended (m : String) :
    extract_version m = amended_token_scan m := by
  unfold extract_version amended_token_scan
  by_cases h : (str_contains (str_lower m) "version"
      || str_contains (str_lower m) "release") = true <;>
    simp [h, extract_eq_zip_scan]

theorem scan_version_eq (commits : List CommitInfo) :
    scan_version commits
      = commits.reverse.findSome? fun c => amended_token_scan c.message := by
  unfold scan_version
  have h1 : (fun (acc : Option String) (c : CommitInfo) =>
        pick_version acc (extract_version c.message))
      = fun acc c => pick_version acc (amended_token_scan c.message) := by
    funext acc c
    rw [extract_version_eq_amended]
  rw [h1, foldl_pick_last (fun c => amended_token_scan c.message) commits none]
  cases commits.reverse.findSome? fun c => amended_token_scan c.message <;> rfl

theorem pick_version_some (acc : Option String) (v : String) :
    pick_version acc (some v) = some v := rfl

theorem foldl_version_all_none (L : List CommitInfo)
    (h : ∀ d ∈ L, extract_version d.message = none) :
    ∀ acc : Option String,
      L.foldl (fun a c => pick_version a (extract_version c.message)) acc = acc := by
  induction L with
  | nil => intro acc; rfl
  | cons c t ih =>
    intro acc
    simp only [List.foldl_cons, h c (List.mem_cons_self c t), pick_version]
    exact ih (fun d hd => h d (List.mem_cons_of_mem c hd)) acc

theorem find_header_end_go_none (rest : List String) :
    ∀ (prev : String) (idx : Nat),
      no_header_boundary (prev :: rest) = true →
      find_header_end_go prev rest idx = none := by
  induction rest with
  | nil => intro prev idx _; rfl
  | cons cur t ih =>
    intro prev idx h
    simp only [no_header_boundary, Bool.and_eq_true, Bool.not_eq_true'] at h
    obtain ⟨hpair, hrest⟩ := h
    have hcond : ((str_trim cur == "") && str_starts_with prev "#") = false := by
      cases hts : (str_trim cur == "") <;> cases hsw : str_starts_with prev "#" <;>
        simp_all
    simp only [find_header_end_go, hcond, Bool.false_eq_true, if_false]
    exact ih cur (idx + 1) hrest

theorem find_header_end_none (lines : List String)
    (h : no_header_boundary lines = true) : find_header_end lines = none := by
  cases lines with
  | nil => rfl
  | cons first rest => exact find_header_end_go_none rest first 1 h

/-! ## The claims -/

/-- C1: the claim reads that short-SHA rendering yields the first
    `min(8, len)` characters of the SHA and does not panic, so a 7-character
    SHA renders as all 7 characters.  The code instead slices `&sha[..8]`
    unconditionally (src/changelog.rs lines 155-166, src/llm.rs lines
    151-154), which on a 7-character SHA is an out-of-bounds panic, modelled
    here as `none`: both rendering paths abort rather than render. -/
theorem short_sha_panics_on_seven_char_sha :
    short_sha "abc1234" = none
    ∧ summary_commit_line ⟨"abc1234", "feat: add login", "alice", "1733000000", []⟩ = none
    ∧ generate_default_changelog "2025-02-03"
        [⟨"abc1234", "feat: add login", "alice", "1733000000", []⟩] = none :=
  ⟨rfl, rfl, rfl⟩

/-- C2: the claim reads that merging with `append = true` into contents with
    no header marker keeps the whole existing text as an opaque trailing block
    after the new section.  The code's no-marker branch
    (src/changelog.rs line 93) instead writes `format!("{}", content)` — the
    new section alone — so the existing contents vanish from the output. -/
theorem append_without_marker_discards_existing :
    append_to_changelog "## [0.1.0] - 2025-01-01\n\n- did a thing"
        "Old release notes\nkept nowhere"
      = "## [0.1.0] - 2025-01-01\n\n- did a thing"
    ∧ str_contains
        (append_to_changelog "## [0.1.0] - 2025-01-01\n\n- did a thing"
          "Old release notes\nkept nowhere")
        "Old release notes" = false :=
  ⟨rfl, rfl⟩

/-- C3: the claim reads that `append = true` merging never loses lines — the
    output has at least as many lines as the input, each prior non-empty line
    surviving.  On marker-free contents the code keeps only the new section:
    here a 2-line input yields a 1-line output and both input lines are gone. -/
theorem merge_drops_lines_without_marker :
    (str_lines (append_to_changelog "NEWSECTION" "first entry\nsecond entry")).length
        < (str_lines "first entry\nsecond entry").length
    ∧ "first entry" ∈ str_lines "first entry\nsecond entry"
    ∧ "first entry" ∉ str_lines (append_to_changelog "NEWSECTION" "first entry\nsecond entry") := by
  decide

/-- C4: for every prompt the generation call makes up to 3 attempts total
    (1 initial + 2 retries) with a one-second pause between attempts; when all
    three fail it surfaces `GenerationFailed` wrapping the last error; and a
    successful response — even the empty string — ends the run after exactly
    the attempt that produced it, with no further attempt: a success at
    attempt k (k = 0, 1, 2) makes exactly k + 1 attempts and k pauses.  The
    four success/failure conjuncts are exhaustive over the run's outcomes. -/
theorem generation_retry_policy (oracle : Nat → Except String String) :
    (∀ e0 e1 e2, oracle 0 = Except.error e0 → oracle 1 = Except.error e1 →
        oracle 2 = Except.error e2 →
        generate_message oracle = ⟨3, 2, Except.error (GenError.generationFailed e2)⟩)
    ∧ (∀ s, oracle 0 = Except.ok s →
        generate_message oracle = ⟨1, 0, Except.ok (post_process s)⟩)
    ∧ (∀ e0 s, oracle 0 = Except.error e0 → oracle 1 = Except.ok s →
        generate_message oracle = ⟨2, 1, Except.ok (post_process s)⟩)
    ∧ (∀ e0 e1 s, oracle 0 = Except.error e0 → oracle 1 = Except.error e1 →
        oracle 2 = Except.ok s →
        generate_message oracle = ⟨3, 2, Except.ok (post_process s)⟩)
    ∧ (generate_message oracle).attempts ≤ 3 := by
  refine ⟨?_, ?_, ?_, ?_, ?_⟩
  · intro e0 e1 e2 h0 h1 h2
    simp [generate_message, h0, h1, h2]
  · intro s h0
    simp [generate_message, h0]
  · intro e0 s h0 h1
    simp [generate_message, h0, h1]
  · intro e0 e1 s h0 h1 h2
    simp [generate_message, h0, h1, h2]
  · cases h0 : oracle 0 <;> cases h1 : oracle 1 <;> cases h2 : oracle 2 <;>
      simp [generate_message, h0, h1, h2]

/-- Witness for C4: with every attempt failing the run makes 3 attempts, takes
    2 pauses and surfaces the wrapped last error; with an immediately
    successful empty response it stops after 1 attempt; with a failure and
    then a successful empty response it stops after exactly 2 attempts — no
    further attempt follows the success. -/
theorem generation_retry_policy_witness :
    generate_message (fun _ => Except.error "connection reset")
      = ⟨3, 2, Except.error (GenError.generationFailed "connection reset")⟩
    ∧ generate_message (fun _ => Except.ok "")
      = ⟨1, 0, Except.ok (post_process "")⟩
    ∧ generate_message (fun n => if n == 0 then Except.error "timeout" else Except.ok "")
      = ⟨2, 1, Except.ok (post_process "")⟩ :=
  ⟨(generation_retry_policy (fun _ => Except.error "connection reset")).1
      "connection reset" "connection reset" "connection reset" rfl rfl rfl,
    (generation_retry_policy (fun _ => Except.ok "")).2.1 "" rfl,
    (generation_retry_policy
        (fun n => if n == 0 then Except.error "timeout" else Except.ok "")).2.2.1
      "timeout" "" rfl rfl⟩

/-- C5: whichever attempt succeeds, the value returned to the caller is the
    provider's text with leading and trailing whitespace trimmed and then a
    leading and a trailing triple-backtick fence stripped when present —
    exactly `strip_code_fence`, which removes only the outermost fence markers
    and interprets no other markdown. -/
theorem generation_post_processing (oracle : Nat → Except String String)
    (raw : String) (k : Nat) (hk : k < 3)
    (hfail : ∀ i, i < k → ∃ e, oracle i = Except.error e)
    (hok : oracle k = Except.ok raw) :
    (generate_message oracle).result = Except.ok (strip_code_fence (str_trim raw)) := by
  interval_cases k
  · simp [generate_message, hok, post_process]
  · obtain ⟨e0, he0⟩ := hfail 0 (by omega)
    simp [generate_message, he0, hok, post_process]
  · obtain ⟨e0, he0⟩ := hfail 0 (by omega)
    obtain ⟨e1, he1⟩ := hfail 1 (by omega)
    simp [generate_message, he0, he1, hok, post_process]

/-- Witness for C5: a first failed attempt, then a success wrapped in a
    markdown fence with a language tag and stray whitespace; the caller
    receives the bare text. -/
theorem generation_post_processing_witness :
    (generate_message (fun n =>
        if n == 0 then Except.error "boom"
        else Except.ok " ```md\nfeat: add login\n``` ")).result
      = Except.ok "feat: add login" := by
  have h := generation_post_processing
    (fun n => if n == 0 then Except.error "boom"
      else Except.ok " ```md\nfeat: add login\n``` ")
    " ```md\nfeat: add login\n``` " 1 (by omega)
    (fun i hi => by interval_cases i; exact ⟨"boom", rfl⟩) rfl
  rw [h]
  rfl

/-- C6 counterexample: the claim reads that any range expression that does not
    split on `".."` into exactly two non-empty tokens fails with
    `InvalidArgument`; but `"..b"` splits into two tokens of which the first is
    empty, passes the format check (src/git.rs line 156 tests only the count),
    and the failure that surfaces comes from resolving the empty revision, not
    `InvalidArgument`. -/
theorem range_empty_token_not_invalid_argument :
    str_split_on "..b" ".." = ["", "b"]
    ∧ get_commits_in_range (fun s => if s = "" then none else some 0)
        (fun _ _ => []) "..b" = Except.error RangeError.resolveFailed
    ∧ get_commits_in_range (fun s => if s = "" then none else some 0)
        (fun _ _ => []) "..b" ≠ Except.error RangeError.invalidArgument :=
  ⟨rfl, rfl, fun h => RangeError.noConfusion (Except.error.inj h)⟩

/-- C6 (amended): `commitsInRange` fails with `InvalidArgument` exactly when
    the expression does not split on `".."` into exactly two tokens — empty
    tokens included; an expression with an empty endpoint passes the format
    check and any failure then comes from revision resolution.  The function
    itself only reads the repository. -/
theorem invalid_argument_iff_not_two_tokens (resolve : String → Option Nat)
    (walk : Nat → Nat → List Nat) (range : String) :
    get_commits_in_range resolve walk range = Except.error RangeError.invalidArgument
      ↔ (str_split_on range "..").length ≠ 2 := by
  unfold get_commits_in_range
  by_cases h : (str_split_on range "..").length = 2
  · simp only [h, bne_self_eq_false, Bool.false_eq_true, if_false]
    cases resolve ((str_split_on range "..").getD 0 "") with
    | none => simp [h]
    | some a =>
      cases resolve ((str_split_on range "..").getD 1 "") with
      | none => simp [h]
      | some b => simp [h]
  · have hb : ((str_split_on range "..").length != 2) = true := by
      simpa [bne_iff_ne] using h
    simp [hb, h]

/-- C7 counterexample: the claim reads the scan as matching the exact token
    `"version"`/`"release"` and using the matched v-token as written.  The
    code instead matches any word containing those strings as substrings and
    works on the lowercased message: `"Subversion v2"` yields `"v2"` where the
    claim's rule falls back to `"0.0.1"`, and `"release vX9"` yields the
    lowercased `"vx9"` where the claim's rule keeps `"vX9"`. -/
theorem version_label_literal_mismatch :
    detect_version_from_commits [⟨"aaaaaaaa", "Subversion v2", "a", "d", []⟩] = "v2"
    ∧ claimed_version_label [⟨"aaaaaaaa", "Subversion v2", "a", "d", []⟩] = "0.0.1"
    ∧ detect_version_from_commits [⟨"aaaaaaaa", "release vX9", "a", "d", []⟩] = "vx9"
    ∧ claimed_version_label [⟨"aaaaaaaa", "release vX9", "a", "d", []⟩] = "vX9" :=
  ⟨rfl, rfl, rfl, rfl⟩

/-- C7 (amended): the derived version label follows `amended_version_label`:
    the scan runs over the lowercased message, any whitespace token containing
    `"version"` or `"release"` as a substring qualifies when immediately
    followed by a token starting with `'v'` and at least one more character,
    and the label is that following lowercased token with non-alphanumeric
    characters trimmed from its ends; the last matching commit wins, and with
    no match anywhere the fallback is `"0.1.0"` when some message starts
    (case-insensitively) with `feat`, else `"0.0.1"`. -/
theorem detect_version_matches_amended_rule (commits : List CommitInfo) :
    detect_version_from_commits commits = amended_version_label commits := by
  unfold detect_version_from_commits amended_version_label
  rw [scan_version_eq]

/-- C8: with an empty staged-file list the commit flow returns successfully as
    a no-op with the clear user-facing message, issues no generation request
    and creates no commit. -/
theorem empty_staged_is_noop (staged : List StagedFile) (diff : String)
    (gen : String → List StagedFile → Except String String) (commitFlag : Bool)
    (h : staged = []) :
    handle_commit staged diff gen commitFlag
      = ⟨[CommitEffect.printed "No staged changes found. Please stage your changes first."],
          true⟩
    ∧ CommitEffect.genRequest ∉ (handle_commit staged diff gen commitFlag).effects
    ∧ ∀ m, CommitEffect.commitCreated m ∉ (handle_commit staged diff gen commitFlag).effects := by
  subst h
  refine ⟨rfl, ?_, ?_⟩
  · simp [handle_commit]
  · intro m
    simp [handle_commit]

/-- Witness for C8: the concrete empty-staging run is the no-op trace. -/
theorem empty_staged_is_noop_witness :
    handle_commit [] "some diff" (fun _ _ => Except.ok "feat: x") true
      = ⟨[CommitEffect.printed "No staged changes found. Please stage your changes first."],
          true⟩ :=
  (empty_staged_is_noop [] "some diff" (fun _ _ => Except.ok "feat: x") true rfl).1

/-- C9: when a commit with a qualifying version token is followed only by
    commits without one, that last match determines the label — the scan does
    not stop at an earlier matching commit, each later match overwriting the
    stored label. -/
theorem last_version_match_wins (pre post : List CommitInfo) (c : CommitInfo)
    (l : String) (h1 : extract_version c.message = some l)
    (h2 : ∀ d ∈ post, extract_version d.message = none) :
    detect_version_from_commits (pre ++ c :: post) = l := by
  unfold detect_version_from_commits scan_version
  rw [List.foldl_append]
  simp only [List.foldl_cons, h1, pick_version_some]
  rw [foldl_version_all_none post h2]

/-- Witness for C9: an earlier `release v0.9` match is overwritten by the
    later `version v1.2.3-rc` match, with a matchless commit after it. -/
theorem last_version_match_wins_witness :
    detect_version_from_commits
      [⟨"1111111a", "chore: prepare release v0.9", "x", "1733000001", []⟩,
       ⟨"2222222b", "bump version v1.2.3-rc (release)", "y", "1733000002", []⟩,
       ⟨"3333333c", "docs: update readme", "z", "1733000003", []⟩] = "v1.2.3-rc" :=
  last_version_match_wins
    [⟨"1111111a", "chore: prepare release v0.9", "x", "1733000001", []⟩]
    [⟨"3333333c", "docs: update readme", "z", "1733000003", []⟩]
    ⟨"2222222b", "bump version v1.2.3-rc (release)", "y", "1733000002", []⟩
    "v1.2.3-rc" (by decide) (by decide)

/-- C10: with `append = true`, contents containing `"# Changelog"` but no line
    starting with `'#'` immediately followed by a blank line, the scan finds
    no boundary, leaves `header_end` at 0, and the merged output is every
    original line, then the inserted section, then every original line again —
    each original line appears at least twice. -/
theorem no_boundary_duplicates_lines (content existing : String)
    (h1 : str_contains existing "# Changelog" = true)
    (h2 : no_header_boundary (str_lines existing) = true) :
    append_to_changelog content existing
      = join_lines (str_lines existing ++ content :: str_lines existing)
    ∧ ∀ l ∈ str_lines existing,
        2 ≤ (str_lines existing ++ content :: str_lines existing).count l := by
  constructor
  · unfold append_to_changelog merge_lines
    rw [find_header_end_none _ h2]
    simp [h1]
  · intro l hl
    have hc : 0 < (str_lines existing).count l := List.count_pos_iff.mpr hl
    have h3 : (str_lines existing).count l ≤ (content :: str_lines existing).count l := by
      rw [List.count_cons]
      split <;> omega
    rw [List.count_append]
    omega

/-- Witness for C10: a marker line with no blank line after it gets the whole
    document duplicated around the inserted section. -/
theorem no_boundary_duplicates_lines_witness :
    str_contains "# Changelog intro\nno blank after hash" "# Changelog" = true
    ∧ no_header_boundary (str_lines "# Changelog intro\nno blank after hash") = true
    ∧ append_to_changelog "NEWSEC" "# Changelog intro\nno blank after hash"
        = join_lines (str_lines "# Changelog intro\nno blank after hash"
            ++ "NEWSEC" :: str_lines "# Changelog intro\nno blank after hash") :=
  ⟨rfl, rfl,
    (no_boundary_duplicates_lines "NEWSEC" "# Changelog intro\nno blank after hash"
      rfl rfl).1⟩

end AutoMessage

